import Mathlib

/-!
Shallow embedding of the workspace-synchronization server of this
repository (`src/server/index.js`): the SQLite-backed store (users,
workspaces, workspace_members), the Express route handlers for
auth/workspaces, and the socket.io room registry with its two broadcast
paths.  Machine state is explicit; each handler is a pure function from
the state (and the authenticated principal, request body and server
clock) to the new state, the HTTP response, and the list of socket
deliveries it caused.
-/

namespace ChartDB

/-- JSON values as delivered by `express.json()`.  Numbers are modelled as
integers (the diagram payload is opaque to the server; no arithmetic is
performed on it). -/
inductive Json where
  | null : Json
  | bool : Bool → Json
  | num : Int → Json
  | str : String → Json
  | arr : List Json → Json
  | obj : List (String × Json) → Json

/-- JavaScript truthiness of a JSON value (`diagram ? … : …`):
`null`, `false`, `0` and `""` are falsy; arrays and objects are truthy. -/
def Json.truthy : Json → Bool
  | .null => false
  | .bool b => b
  | .num n => n != 0
  | .str s => s != ""
  | .arr _ => true
  | .obj _ => true

/-- Escape one character for a JSON string literal (`JSON.stringify`). -/
def escChar (c : Char) : String :=
  if c = '"' then ("\\\"") else if c = '\\' then ("\\\\") else String.singleton c

/-- Escape a string for a JSON string literal. -/
def escStr (s : String) : String :=
  String.join (s.toList.map escChar)

mutual

/-- Serialization `JSON.stringify` on the modelled JSON fragment (no added whitespace,
as the JavaScript built-in produces). -/
def Json.stringify : Json → String
  | .null => "null"
  | .bool true => "true"
  | .bool false => "false"
  | .num n => toString n
  | .str s => "\"" ++ escStr s ++ "\""
  | .arr xs => "[" ++ stringifyArr xs ++ "]"
  | .obj fs => "\x7b" ++ stringifyObj fs ++ "\x7d"

/-- Comma-separated serialization of array elements. -/
def stringifyArr : List Json → String
  | [] => ""
  | [x] => Json.stringify x
  | x :: xs => Json.stringify x ++ "," ++ stringifyArr xs

/-- Comma-separated serialization of object fields. -/
def stringifyObj : List (String × Json) → String
  | [] => ""
  | [(k, v)] => "\"" ++ escStr k ++ "\":" ++ Json.stringify v
  | (k, v) :: fs =>
      "\"" ++ escStr k ++ "\":" ++ Json.stringify v ++ "," ++ stringifyObj fs

end

/-- A row of the `users` table (id, email UNIQUE, password_hash). -/
structure UserRow where
  id : Nat
  email : String
  password_hash : String
deriving DecidableEq

/-- A row of the `workspaces` table.  `id` is the TEXT PRIMARY KEY;
`diagram_json` holds the serialized document blob. -/
structure WorkspaceRow where
  id : String
  name : String
  owner_id : Nat
  diagram_json : String
  created_at : String
  updated_at : String
deriving DecidableEq

/-- A row of the `workspace_members` table; PRIMARY KEY (user_id, workspace_id). -/
structure MemberRow where
  user_id : Nat
  workspace_id : String
  role : String
deriving DecidableEq

/-- The persistent SQLite state: the three relations the workspace
routes touch (the dormant `sessions` table is never read or written by
any handler and is omitted). -/
structure DB where
  users : List UserRow
  workspaces : List WorkspaceRow
  members : List MemberRow
deriving DecidableEq

/-- Result of an HTTP handler: a success payload, or
`res.status(s).json(\x7b error: e \x7d)`. -/
inductive ApiResult (α : Type) where
  | ok : α → ApiResult α
  | err : Nat → String → ApiResult α
deriving DecidableEq

/-- Whether a workspace row with this id exists (UNIQUE check of the
`workspaces` PRIMARY KEY). -/
def DB.hasWorkspace (db : DB) (wid : String) : Bool :=
  db.workspaces.any (fun w => w.id == wid)

/-- Whether a membership row (uid, wid) exists (UNIQUE check of the
`workspace_members` PRIMARY KEY). -/
def DB.hasMember (db : DB) (uid : Nat) (wid : String) : Bool :=
  db.members.any (fun m => m.user_id == uid && m.workspace_id == wid)

/-- The JOIN condition of the GET/PUT workspace queries: a workspace row
with id `wid` joined to a membership row for `uid`. -/
def DB.authJoin (db : DB) (uid : Nat) (wid : String) : Bool :=
  db.workspaces.any
    (fun w => w.id == wid &&
      db.members.any (fun m => m.workspace_id == w.id && m.user_id == uid))

/-- Success body of login/signup: `\x7b id, email \x7d`. -/
structure UserResp where
  id : Nat
  email : String
deriving DecidableEq

/-- Handler of `POST /api/auth/login`.  `sess` is the cookie session's `userId`
(`none` when unauthenticated); `compare` is `bcrypt.compareSync`
(password, stored hash), kept abstract.  A missing field is modelled as
the empty string, which is exactly what the JavaScript truthiness test
`!email || !password` rejects.  Returns the new session and the response. -/
def login (db : DB) (sess : Option Nat) (compare : String → String → Bool)
    (email password : String) : Option Nat × ApiResult UserResp :=
  if email == "" || password == "" then
    (sess, .err 400 "Email and password required")
  else
    match db.users.find? (fun u => u.email == email) with
    | none => (sess, .err 401 "Invalid credentials")
    | some u =>
      if compare password u.password_hash then (some u.id, .ok ⟨u.id, u.email⟩)
      else (sess, .err 401 "Invalid credentials")

/-- One element of the `GET /api/workspaces` response: `\x7bid, name, updatedAt\x7d`. -/
structure ListItem where
  id : String
  name : String
  updatedAt : String
deriving DecidableEq

/-- Row set of the list query before ORDER BY: workspaces JOIN
workspace_members ON m.workspace_id = w.id WHERE m.user_id = uid,
projected to (id, name, updated_at). -/
def listRows (db : DB) (uid : Nat) : List ListItem :=
  db.workspaces.flatMap (fun w =>
    (db.members.filter (fun m => m.workspace_id == w.id && m.user_id == uid)).map
      (fun _ => ⟨w.id, w.name, w.updated_at⟩))

/-- The ORDER BY `w.updated_at DESC` comparison (SQLite TEXT collation is
lexicographic byte order, the `≤` of `String`). -/
def listDescOrder (a b : ListItem) : Prop :=
  b.updatedAt ≤ a.updatedAt

instance : DecidableRel listDescOrder :=
  fun a b => inferInstanceAs (Decidable (b.updatedAt ≤ a.updatedAt))

/-- Handler of `GET /api/workspaces` for an authenticated principal `uid`: the join
rows ordered by updated_at descending.  SQL leaves the order of equal
keys unspecified; insertion sort realizes one admissible order, and the
theorems proved about it (multiset equality and sortedness) hold of any
admissible order. -/
def listWorkspaces (db : DB) (uid : Nat) : List ListItem :=
  (listRows db uid).insertionSort listDescOrder

/-- Success body of `POST /api/workspaces`: `\x7b id, name \x7d`. -/
structure CreateResp where
  id : String
  name : String
deriving DecidableEq

/-- The default `diagram ?? \x7b\x7d`: nullish coalescing replaces an absent field
(`none`) or an explicit JSON `null` by the empty object. -/
def nullishOrEmpty : Option Json → Json
  | none => .obj []
  | some .null => .obj []
  | some d => d

/-- Handler of `POST /api/workspaces` for authenticated `uid`.  The handler runs two
separate INSERT statements with no transaction; `fail1`/`fail2` model the
storage engine raising a non-UNIQUE error (disk/runtime failure) on the
respective INSERT — the nominal execution has both false.  UNIQUE-key
violations are deterministic in the state and are checked where the
engine would raise them; the catch block maps a UNIQUE error to
409 and any other to 500.  `now` is the store clock used for the
`datetime('now')` column defaults. -/
def createWorkspace (db : DB) (uid : Nat) (id name : String) (diagram : Option Json)
    (now : String) (fail1 fail2 : Bool) : DB × ApiResult CreateResp :=
  if id == "" || name == "" then (db, .err 400 "id and name required")
  else if db.hasWorkspace id then (db, .err 409 "Workspace already exists")
  else if fail1 then (db, .err 500 "Failed to create workspace")
  else
    let w : WorkspaceRow :=
      ⟨id, name, uid, Json.stringify (nullishOrEmpty diagram), now, now⟩
    let db1 : DB := { db with workspaces := db.workspaces ++ [w] }
    if db1.hasMember uid id then (db1, .err 409 "Workspace already exists")
    else if fail2 then (db1, .err 500 "Failed to create workspace")
    else ({ db1 with members := db1.members ++ [⟨uid, id, "owner"⟩] }, .ok ⟨id, name⟩)

/-- Success body of `GET /api/workspaces/:id`.  The handler responds with
`diagram: JSON.parse(w.diagram_json)`; the model carries the stored
serialized text `diagramJson`, the exact value that parse is applied to. -/
structure GetResp where
  id : String
  name : String
  diagramJson : String
  updatedAt : String
deriving DecidableEq

/-- Handler of `GET /api/workspaces/:id` for authenticated `uid`: single query over
workspaces JOIN workspace_members WHERE w.id = wid AND m.user_id = uid;
no row yields 404 `Not found`. -/
def getWorkspace (db : DB) (uid : Nat) (wid : String) : ApiResult GetResp :=
  match db.workspaces.find?
      (fun w => w.id == wid &&
        db.members.any (fun m => m.workspace_id == w.id && m.user_id == uid)) with
  | some w => .ok ⟨w.id, w.name, w.diagram_json, w.updated_at⟩
  | none => .err 404 "Not found"

/-- socket.io room registry: room name → member connection ids.
`socket.join` keeps a set of sockets per room. -/
abbrev Rooms := String → List Nat

/-- Room name used by all three socket paths and the PUT broadcast. -/
def roomName (wid : String) : String :=
  "ws:" ++ wid

/-- Join (`socket.join`) — idempotent insertion into the room. -/
def joinRoom (r : Rooms) (wid : String) (c : Nat) : Rooms :=
  fun s => if s = roomName wid then (if c ∈ r s then r s else c :: r s) else r s

/-- Leave (`socket.leave`) — removal from the room. -/
def leaveRoom (r : Rooms) (wid : String) (c : Nat) : Rooms :=
  fun s => if s = roomName wid then (r s).filter (fun x => x != c) else r s

/-- Body of `PUT /api/workspaces/:id`.  `name`: `none` covers an absent
field and an explicit JSON `null` (the handler's `name ?? null` makes
them indistinguishable); `diagram`: `none` is an absent field, an
explicit `null` is `some .null`; `updatedAt` is any timestamp a caller
might try to smuggle in — the handler never reads it. -/
structure PutBody where
  name : Option String
  diagram : Option Json
  updatedAt : Option String

/-- Success body of PUT: `\x7b ok: true, updatedAt \x7d`. -/
structure PutResp where
  ok : Bool
  updatedAt : String
deriving DecidableEq

/-- The `workspace:update` event a successful PUT emits to the room:
`\x7b id, name, diagram, updatedAt \x7d` with the raw request-body
`name`/`diagram` values and the server-stamped `updatedAt`. -/
structure UpdateEvent where
  id : String
  name : Option String
  diagram : Option Json
  updatedAt : String

/-- Handler of `PUT /api/workspaces/:id` for authenticated `uid`.  Authorization is
the same JOIN as GET (404 on no row); on success the UPDATE statement
sets `name = COALESCE(name ?? null, name)`,
`diagram_json = COALESCE(diagram ? stringify(diagram) : null, diagram_json)`
and `updated_at = now` where `now = new Date().toISOString()` is read
from the server clock, then emits one `workspace:update` event to every
connection in room `ws:id` (io.to does not exclude any connection) and
responds `\x7b ok: true, updatedAt: now \x7d`.  Returns the new state,
the response, and the socket deliveries. -/
def updateWorkspace (db : DB) (rooms : Rooms) (uid : Nat) (wid : String)
    (body : PutBody) (now : String) :
    DB × ApiResult PutResp × List (Nat × UpdateEvent) :=
  if db.authJoin uid wid then
    let db1 : DB := { db with workspaces := db.workspaces.map (fun w =>
      if w.id == wid then
        { w with
          name := match body.name with
            | some s => s
            | none => w.name
          diagram_json := match body.diagram with
            | some d => if d.truthy then Json.stringify d else w.diagram_json
            | none => w.diagram_json
          updated_at := now }
      else w) }
    (db1, .ok ⟨true, now⟩,
      (rooms (roomName wid)).map (fun c => (c, ⟨wid, body.name, body.diagram, now⟩)))
  else (db, .err 404 "Not found", [])

/-- The `workspace:patch` event of the ephemeral relay path:
`\x7b id, patch \x7d`. -/
structure RelayEvent where
  id : String
  patch : Json

/-- Client→server socket messages handled in the `io.on('connection')`
block. -/
inductive SocketMsg where
  | join : String → SocketMsg
  | leave : String → SocketMsg
  | update : String → Json → SocketMsg

/-- The socket message handlers.  `conn` is the handling socket's
connection id.  `workspace:join`/`workspace:leave` mutate only the room
registry; `workspace:update` rebroadcasts `\x7bid, patch\x7d` verbatim as
`workspace:patch` via `socket.to`, which delivers to every room member
EXCEPT the sender, and touches neither the registry nor the database. -/
def handleSocket (db : DB) (rooms : Rooms) (conn : Nat) :
    SocketMsg → DB × Rooms × List (Nat × RelayEvent)
  | .join wid => (db, joinRoom rooms wid conn, [])
  | .leave wid => (db, leaveRoom rooms wid conn, [])
  | .update wid patch =>
      (db, rooms,
        ((rooms (roomName wid)).filter (fun c => c != conn)).map
          (fun c => (c, ⟨wid, patch⟩)))

/-- PRIMARY KEY of `workspaces`: ids are pairwise distinct. -/
def DB.WFworkspaceIds (db : DB) : Prop :=
  (db.workspaces.map (fun w => w.id)).Nodup

/-- PRIMARY KEY of `workspace_members`: (user_id, workspace_id) pairs are
pairwise distinct. -/
def DB.WFmemberKeys (db : DB) : Prop :=
  (db.members.map (fun m => (m.user_id, m.workspace_id))).Nodup

/-- FOREIGN KEY of `workspace_members.workspace_id`: every membership row
references an existing workspace row.  Every reachable state satisfies
this: memberships are only inserted by create, right after the workspace
row, and nothing deletes workspaces. -/
def DB.WFmemberRefs (db : DB) : Prop :=
  ∀ m ∈ db.members, ∃ w ∈ db.workspaces, w.id = m.workspace_id

instance : IsTotal ListItem listDescOrder :=
  ⟨fun a b => le_total b.updatedAt a.updatedAt⟩

instance : IsTrans ListItem listDescOrder :=
  ⟨fun _ _ _ hab hbc => le_trans hbc hab⟩

/-! Theorems. -/

/-- C1: `GET /api/workspaces/:id` succeeds and returns the stored
workspace exactly when a membership row (uid, wid) exists; whenever no
such row exists — whether the workspace is absent or exists without
uid's membership — the outcome is the one literal NotFound response
(status 404, body error "Not found"), so the two cases are
indistinguishable to the caller.  The foreign-key hypothesis holds in
every reachable state. -/
theorem getWorkspace_member_iff (db : DB) (uid : Nat) (wid : String)
    (href : db.WFmemberRefs) :
    ((∃ g, getWorkspace db uid wid = ApiResult.ok g) ↔
      (∃ m ∈ db.members, m.user_id = uid ∧ m.workspace_id = wid)) ∧
    ((¬ ∃ m ∈ db.members, m.user_id = uid ∧ m.workspace_id = wid) →
      getWorkspace db uid wid = ApiResult.err 404 "Not found") ∧
    (∀ g, getWorkspace db uid wid = ApiResult.ok g →
      ∃ w ∈ db.workspaces, w.id = wid ∧
        g = ⟨w.id, w.name, w.diagram_json, w.updated_at⟩) := by
  unfold getWorkspace
  cases hf : db.workspaces.find?
      (fun w => w.id == wid &&
        db.members.any (fun m => m.workspace_id == w.id && m.user_id == uid)) with
  | none =>
    refine ⟨⟨fun ⟨g, hg⟩ => by simp at hg, fun ⟨m, hm, hu, hw⟩ => ?_⟩,
      fun _ => rfl, fun g hg => by simp at hg⟩
    exfalso
    obtain ⟨w, hwmem, hwid⟩ := href m hm
    refine List.find?_eq_none.mp hf w hwmem ?_
    simp only [Bool.and_eq_true, beq_iff_eq, List.any_eq_true]
    exact ⟨hwid.trans hw, m, hm, hwid.symm, hu⟩
  | some w =>
    have hp := List.find?_some hf
    have hwmem := List.mem_of_find?_eq_some hf
    simp only [Bool.and_eq_true, beq_iff_eq, List.any_eq_true] at hp
    obtain ⟨hwid, m, hm, hmw, hmu⟩ := hp
    refine ⟨⟨fun _ => ⟨m, hm, hmu, hmw.trans hwid⟩, fun _ => ⟨_, rfl⟩⟩,
      fun hn => absurd ⟨m, hm, hmu, hmw.trans hwid⟩ hn,
      fun g hg => ⟨w, hwmem, hwid, by simpa using hg.symm⟩⟩

/-- C1 witness: a state with workspace "w1" owned by user 1; user 2 has
no membership, so the GET fails with the NotFound response. -/
theorem getWorkspace_member_iff_witness :
    getWorkspace ⟨[], [⟨"w1", "N", 1, "\x7b\x7d", "T1", "T1"⟩], [⟨1, "w1", "owner"⟩]⟩
      2 "w1" = ApiResult.err 404 "Not found" :=
  (getWorkspace_member_iff
      ⟨[], [⟨"w1", "N", 1, "\x7b\x7d", "T1", "T1"⟩], [⟨1, "w1", "owner"⟩]⟩
      2 "w1" (by unfold DB.WFmemberRefs; decide)).2.1 (by decide)

/-- C8: with both fields present, a login attempt that does not match a
stored credential — the email is unknown, or it is known and the bcrypt
comparison fails — produces the one literal Unauthorized response
(status 401, body error "Invalid credentials") and leaves the session
unchanged, so the two failure cases are indistinguishable and no session
is started. -/
theorem login_failure_uniform (db : DB) (sess : Option Nat)
    (compare : String → String → Bool) (email password : String)
    (he : email ≠ "") (hp : password ≠ "")
    (hfail : ∀ u ∈ db.users, u.email = email →
      compare password u.password_hash = false) :
    login db sess compare email password =
      (sess, ApiResult.err 401 "Invalid credentials") := by
  unfold login
  rw [if_neg (by simp [he, hp])]
  cases hf : db.users.find? (fun u => u.email == email) with
  | none => rfl
  | some u =>
    have hu : u.email = email := by simpa using List.find?_some hf
    have hc := hfail u (List.mem_of_find?_eq_some hf) hu
    simp [hc]

/-- C8 witness: one stored user; a wrong password for the known email
yields exactly the Unauthorized outcome with the session untouched. -/
theorem login_failure_uniform_witness :
    login ⟨[⟨1, "a@x.com", "h1"⟩], [], []⟩ none
      (fun p h => p == "pw" && h == "h1") "a@x.com" "wrong" =
      (none, ApiResult.err 401 "Invalid credentials") :=
  login_failure_uniform ⟨[⟨1, "a@x.com", "h1"⟩], [], []⟩ none
    (fun p h => p == "pw" && h == "h1") "a@x.com" "wrong"
    (by decide) (by decide) (by decide)

/-- In a duplicate-free list a present element is hit by exactly one
filter match. -/
theorem filter_beq_length_of_nodup {l : List Nat} {c : Nat}
    (hnd : l.Nodup) (hc : c ∈ l) :
    (l.filter (fun x => x == c)).length = 1 := by
  induction l with
  | nil => cases hc
  | cons a t ih =>
    rcases List.nodup_cons.mp hnd with ⟨hna, hnt⟩
    rcases List.mem_cons.mp hc with rfl | hct
    · have hz : t.filter (fun x => x == c) = [] :=
        List.filter_eq_nil_iff.mpr (fun b hb => by
          simp only [beq_iff_eq]
          exact fun hbc => hna (hbc ▸ hb))
      simp [List.filter_cons, hz]
    · have hac : (a == c) = false := by
        simp only [beq_eq_false_iff_ne, ne_eq]
        exact fun h => hna (h ▸ hct)
      simp [List.filter_cons, hac, ih hnt hct]

/-- C6: when a joined connection relays an ephemeral patch
(`workspace:update` with an id and patch), the server state is
completely unchanged — the database (hence every persisted document) and
the room registry — and the payload is rebroadcast verbatim (as the
`workspace:patch` event `RelayEvent`) to exactly the other members of
room `ws:id`: every delivery goes to a room member other than the
sender and carries the id and patch unmodified, and each such member
receives it exactly once. -/
theorem relay_verbatim_excluding_sender (db : DB) (rooms : Rooms) (conn : Nat)
    (wid : String) (patch : Json) (c : Nat)
    (hnd : (rooms (roomName wid)).Nodup)
    (hc : c ∈ rooms (roomName wid)) (hcs : c ≠ conn) :
    (handleSocket db rooms conn (.update wid patch)).1 = db ∧
    (handleSocket db rooms conn (.update wid patch)).2.1 = rooms ∧
    (∀ p ∈ (handleSocket db rooms conn (.update wid patch)).2.2,
      p.1 ≠ conn ∧ p.1 ∈ rooms (roomName wid) ∧
        p.2.id = wid ∧ p.2.patch = patch) ∧
    ((handleSocket db rooms conn (.update wid patch)).2.2.filter
        (fun p => p.1 == c)).length = 1 := by
  refine ⟨rfl, rfl, ?_, ?_⟩
  · intro p hp
    simp only [handleSocket, List.mem_map, List.mem_filter] at hp
    obtain ⟨c', ⟨hc'mem, hc'ne⟩, rfl⟩ := hp
    exact ⟨by simpa using hc'ne, hc'mem, rfl, rfl⟩
  · show ((((rooms (roomName wid)).filter (fun x => x != conn)).map
        (fun c => (c, (⟨wid, patch⟩ : RelayEvent)))).filter
          (fun p => p.1 == c)).length = 1
    rw [List.filter_map, List.length_map]
    exact filter_beq_length_of_nodup (hnd.filter _)
      (List.mem_filter.mpr ⟨hc, by simpa using hcs⟩)

/-- C6 witness: connections 5 and 7 are joined to room ws:w1; 5 relays a
patch; 7 alone receives it, verbatim, and the state is untouched. -/
theorem relay_verbatim_excluding_sender_witness :
    (handleSocket ⟨[], [], []⟩ (fun s => if s = "ws:w1" then [5, 7] else []) 5
        (.update ("w1") (.num 9))).1 = ⟨[], [], []⟩ ∧
    ((handleSocket ⟨[], [], []⟩ (fun s => if s = "ws:w1" then [5, 7] else []) 5
        (.update ("w1") (.num 9))).2.2.filter (fun p => p.1 == 7)).length = 1 :=
  ⟨(relay_verbatim_excluding_sender ⟨[], [], []⟩
      (fun s => if s = "ws:w1" then [5, 7] else []) 5 "w1" (.num 9) 7
      (by simp [roomName]) (by simp [roomName]) (by decide)).1,
   (relay_verbatim_excluding_sender ⟨[], [], []⟩
      (fun s => if s = "ws:w1" then [5, 7] else []) 5 "w1" (.num 9) 7
      (by simp [roomName]) (by simp [roomName]) (by decide)).2.2.2⟩

/-- C3: when a PUT succeeds (the authorization join finds a row), every
connection currently joined to room `ws:id` — the mutator's own
connection is not excluded — receives exactly one `workspace:update`
delivery, and every delivery carries exactly the `updatedAt` value that
the PUT response returns. -/
theorem put_broadcast_exactly_once (db : DB) (rooms : Rooms) (uid : Nat)
    (wid : String) (body : PutBody) (now : String) (c : Nat)
    (hauth : db.authJoin uid wid = true)
    (hnd : (rooms (roomName wid)).Nodup)
    (hc : c ∈ rooms (roomName wid)) :
    (updateWorkspace db rooms uid wid body now).2.1 =
      ApiResult.ok ⟨true, now⟩ ∧
    ((updateWorkspace db rooms uid wid body now).2.2.filter
        (fun p => p.1 == c)).length = 1 ∧
    (∀ p ∈ (updateWorkspace db rooms uid wid body now).2.2,
      p.2.updatedAt = now ∧ p.1 ∈ rooms (roomName wid)) := by
  unfold updateWorkspace
  rw [if_pos hauth]
  refine ⟨rfl, ?_, ?_⟩
  · show (((rooms (roomName wid)).map
        (fun c => (c, (⟨wid, body.name, body.diagram, now⟩ : UpdateEvent)))).filter
          (fun p => p.1 == c)).length = 1
    rw [List.filter_map, List.length_map]
    exact filter_beq_length_of_nodup hnd hc
  · intro p hp
    simp only [List.mem_map] at hp
    obtain ⟨c', hc'mem, rfl⟩ := hp
    exact ⟨rfl, hc'mem⟩

/-- C3 witness: room ws:w1 holds connections 5 and 7; an authorized PUT
responds ok with updatedAt "T2" and delivers exactly one event to 7. -/
theorem put_broadcast_exactly_once_witness :
    (updateWorkspace
        ⟨[], [⟨"w1", "N", 1, "\x7b\x7d", "T1", "T1"⟩], [⟨1, "w1", "owner"⟩]⟩
        (fun s => if s = "ws:w1" then [5, 7] else []) 1 "w1"
        ⟨some ("M"), none, none⟩ "T2").2.1 = ApiResult.ok ⟨true, "T2"⟩ ∧
    ((updateWorkspace
        ⟨[], [⟨"w1", "N", 1, "\x7b\x7d", "T1", "T1"⟩], [⟨1, "w1", "owner"⟩]⟩
        (fun s => if s = "ws:w1" then [5, 7] else []) 1 "w1"
        ⟨some ("M"), none, none⟩ "T2").2.2.filter (fun p => p.1 == 7)).length = 1 :=
  ⟨(put_broadcast_exactly_once
      ⟨[], [⟨"w1", "N", 1, "\x7b\x7d", "T1", "T1"⟩], [⟨1, "w1", "owner"⟩]⟩
      (fun s => if s = "ws:w1" then [5, 7] else []) 1 "w1"
      ⟨some ("M"), none, none⟩ "T2" 7 (by decide)
      (by simp [roomName]) (by simp [roomName])).1,
   (put_broadcast_exactly_once
      ⟨[], [⟨"w1", "N", 1, "\x7b\x7d", "T1", "T1"⟩], [⟨1, "w1", "owner"⟩]⟩
      (fun s => if s = "ws:w1" then [5, 7] else []) 1 "w1"
      ⟨some ("M"), none, none⟩ "T2" 7 (by decide)
      (by simp [roomName]) (by simp [roomName])).2.1⟩

/-- C4: the `updatedAt` of a successful PUT is assigned by the server
from its own clock reading `now` — a caller-supplied `updatedAt` is
never read, so the whole outcome is invariant under it — the response
and every stored row for that workspace carry exactly `now`, and
whenever the clock reading is at least the previously stored value
(which a non-decreasing server clock guarantees, earlier values being
earlier readings of the same clock), the per-workspace updated-at is
monotonically non-decreasing across the update. -/
theorem put_updatedAt_server_clock (db : DB) (rooms : Rooms) (uid : Nat)
    (wid : String) (body : PutBody) (now : String) (x : Option String)
    (hauth : db.authJoin uid wid = true)
    (hclock : ∀ w ∈ db.workspaces, w.id = wid → w.updated_at ≤ now) :
    (updateWorkspace db rooms uid wid body now).2.1 = ApiResult.ok ⟨true, now⟩ ∧
    (∀ w' ∈ (updateWorkspace db rooms uid wid body now).1.workspaces,
      w'.id = wid → w'.updated_at = now) ∧
    (∀ w ∈ db.workspaces, w.id = wid →
      ∀ w' ∈ (updateWorkspace db rooms uid wid body now).1.workspaces,
        w'.id = wid → w.updated_at ≤ w'.updated_at) ∧
    updateWorkspace db rooms uid wid ⟨body.name, body.diagram, x⟩ now =
      updateWorkspace db rooms uid wid body now := by
  have hstamp : ∀ w' ∈ (updateWorkspace db rooms uid wid body now).1.workspaces,
      w'.id = wid → w'.updated_at = now := by
    unfold updateWorkspace
    rw [if_pos hauth]
    intro w' hw' hwid'
    simp only [List.mem_map] at hw'
    obtain ⟨w, hw, rfl⟩ := hw'
    by_cases h : w.id == wid
    · simp [h]
    · rw [if_neg (by simpa using h)] at hwid'
      exact absurd hwid' (by simpa using h)
  refine ⟨by unfold updateWorkspace; rw [if_pos hauth], hstamp, ?_, ?_⟩
  · intro w hw hwid w' hw' hwid'
    rw [hstamp w' hw' hwid']
    exact hclock w hw hwid
  · cases body
    rfl

/-- C4 witness: workspace "w1" stored with updated_at "T1"; a PUT at
clock "T2" carrying a forged updatedAt responds with the server value. -/
theorem put_updatedAt_server_clock_witness :
    (updateWorkspace
        ⟨[], [⟨"w1", "N", 1, "\x7b\x7d", "T1", "T1"⟩], [⟨1, "w1", "owner"⟩]⟩
        (fun _ => []) 1 "w1" ⟨none, none, some ("9999-12-31")⟩ "T2").2.1 =
      ApiResult.ok ⟨true, "T2"⟩ :=
  (put_updatedAt_server_clock
      ⟨[], [⟨"w1", "N", 1, "\x7b\x7d", "T1", "T1"⟩], [⟨1, "w1", "owner"⟩]⟩
      (fun _ => []) 1 "w1" ⟨none, none, some ("9999-12-31")⟩ "T2" none
      (by decide)
      (by
        intro w hw _
        simp only [List.mem_singleton] at hw
        subst hw
        rw [String.le_iff_toList_le]
        decide)).1

/-- C5 counterexample: the workspace stores document "\x7b"a":1\x7d";
a PUT whose body actually provides the document field with the falsy
JSON value `false` succeeds, yet the stored document is left unchanged
rather than being set to the provided value's serialization "false" —
refuting the claim that every provided field is applied. -/
theorem put_provided_falsy_document_not_applied :
    (updateWorkspace
        ⟨[], [⟨"w1", "N", 1, "\x7b\"a\":1\x7d", "T1", "T1"⟩], [⟨1, "w1", "owner"⟩]⟩
        (fun _ => []) 1 "w1" ⟨none, some (.bool false), none⟩ "T2").2.1 =
      ApiResult.ok ⟨true, "T2"⟩ ∧
    (updateWorkspace
        ⟨[], [⟨"w1", "N", 1, "\x7b\"a\":1\x7d", "T1", "T1"⟩], [⟨1, "w1", "owner"⟩]⟩
        (fun _ => []) 1 "w1" ⟨none, some (.bool false), none⟩
        "T2").1.workspaces.map (fun w => w.diagram_json) = ["\x7b\"a\":1\x7d"] ∧
    Json.stringify (.bool false) ≠ "\x7b\"a\":1\x7d" :=
  ⟨rfl, rfl, by decide⟩

/-- C5 amended: for an authorized PUT, a provided (non-null) name is
applied and a provided truthy document is applied; an absent-or-null
name and an absent-or-falsy document leave the respective stored column
byte-for-byte untouched — in particular an update supplying only a name
leaves the stored document unchanged, and one supplying only a truthy
document leaves the name unchanged — while id, owner_id and created_at
are never changed, rows of other workspaces are returned unchanged, and
the users and members relations are untouched. -/
theorem put_fields_frame (db : DB) (rooms : Rooms) (uid : Nat) (wid : String)
    (body : PutBody) (now : String)
    (hauth : db.authJoin uid wid = true) :
    (updateWorkspace db rooms uid wid body now).1.users = db.users ∧
    (updateWorkspace db rooms uid wid body now).1.members = db.members ∧
    List.Forall₂ (fun w w' =>
      w'.id = w.id ∧ w'.owner_id = w.owner_id ∧ w'.created_at = w.created_at ∧
      (w.id ≠ wid → w' = w) ∧
      (w.id = wid →
        (∀ s, body.name = some s → w'.name = s) ∧
        (body.name = none → w'.name = w.name) ∧
        (∀ d, body.diagram = some d → d.truthy = true →
          w'.diagram_json = Json.stringify d) ∧
        (∀ d, body.diagram = some d → d.truthy = false →
          w'.diagram_json = w.diagram_json) ∧
        (body.diagram = none → w'.diagram_json = w.diagram_json)))
      db.workspaces (updateWorkspace db rooms uid wid body now).1.workspaces := by
  unfold updateWorkspace
  rw [if_pos hauth]
  refine ⟨rfl, rfl, ?_⟩
  rw [List.forall₂_map_right_iff]
  refine List.forall₂_same.mpr (fun w _ => ?_)
  by_cases h : w.id = wid
  · rw [if_pos (by simpa using h)]
    refine ⟨rfl, rfl, rfl, fun hne => absurd h hne, fun _ => ?_⟩
    refine ⟨fun s hs => by simp [hs], fun hn => by simp [hn],
      fun d hd ht => ?_, fun d hd ht => ?_, fun hn => by simp [hn]⟩
    · simp [hd, ht]
    · simp [hd, ht]
  · rw [if_neg (by simpa using h)]
    exact ⟨rfl, rfl, rfl, fun _ => rfl, fun he => absurd he h⟩

/-- C5 amended witness: a PUT supplying only a name changes the name and
leaves the stored document byte-for-byte unchanged. -/
theorem put_fields_frame_witness :
    (updateWorkspace
        ⟨[], [⟨"w1", "N", 1, "\x7b\"a\":1\x7d", "T1", "T1"⟩], [⟨1, "w1", "owner"⟩]⟩
        (fun _ => []) 1 "w1" ⟨some ("M"), none, none⟩ "T2").1.members =
      [⟨1, "w1", "owner"⟩] :=
  (put_fields_frame
      ⟨[], [⟨"w1", "N", 1, "\x7b\"a\":1\x7d", "T1", "T1"⟩], [⟨1, "w1", "owner"⟩]⟩
      (fun _ => []) 1 "w1" ⟨some ("M"), none, none⟩ "T2" (by decide)).2.1

/-- C2: the two INSERT statements of POST /api/workspaces are not
wrapped in a transaction, so they are not atomic.  Concretely: from an
empty store, a create during which the storage engine fails the second
(membership) INSERT after the first (workspace) INSERT succeeded leaves
the workspace row "w1" committed with no membership row at all, and the
handler answers 500 — a reachable state in which the Workspace row
exists without its role-owner membership row. -/
theorem create_nonatomic_counterexample :
    (createWorkspace ⟨[⟨1, "a@x.com", "h"⟩], [], []⟩ 1 "w1" "N" none ("T1")
        false true).2 = ApiResult.err 500 "Failed to create workspace" ∧
    (createWorkspace ⟨[⟨1, "a@x.com", "h"⟩], [], []⟩ 1 "w1" "N" none ("T1")
        false true).1.workspaces.map (fun w => w.id) = ["w1"] ∧
    (createWorkspace ⟨[⟨1, "a@x.com", "h"⟩], [], []⟩ 1 "w1" "N" none ("T1")
        false true).1.members = [] :=
  ⟨rfl, rfl, rfl⟩

/-- C7: from a state where workspace `id` does not yet exist and the
first call passes validation and runs without storage failure, the first
create succeeds; a second create with the same `id` — by any caller,
with any name passing validation, any document, any clock, and under any
injected storage-failure pattern — returns the Conflict response
(409, "Workspace already exists") and leaves the storage state exactly
as it was after the first call. -/
theorem create_twice_conflict (db0 : DB) (uid uid2 : Nat)
    (id name name2 : String) (d d2 : Option Json) (t1 t2 : String)
    (f1 f2 : Bool)
    (hid : id ≠ "") (hname : name ≠ "") (hname2 : name2 ≠ "")
    (hw : db0.hasWorkspace id = false) (hm : db0.hasMember uid id = false) :
    (createWorkspace db0 uid id name d t1 false false).2 =
      ApiResult.ok ⟨id, name⟩ ∧
    createWorkspace (createWorkspace db0 uid id name d t1 false false).1
        uid2 id name2 d2 t2 f1 f2 =
      ((createWorkspace db0 uid id name d t1 false false).1,
        ApiResult.err 409 "Workspace already exists") := by
  simp only [DB.hasWorkspace] at hw
  simp only [DB.hasMember] at hm
  have hfst : createWorkspace db0 uid id name d t1 false false =
      ({ db0 with
          workspaces := db0.workspaces ++
            [⟨id, name, uid, Json.stringify (nullishOrEmpty d), t1, t1⟩],
          members := db0.members ++ [⟨uid, id, "owner"⟩] },
        ApiResult.ok ⟨id, name⟩) := by
    simp [createWorkspace, hid, hname, DB.hasWorkspace, DB.hasMember, hw, hm]
  rw [hfst]
  refine ⟨rfl, ?_⟩
  unfold createWorkspace
  rw [if_neg (by simp [hid, hname2]),
    if_pos (by simp [DB.hasWorkspace, List.any_append])]

/-- C7 witness: creating "w1" twice from an empty store — the second
call by another user conflicts and changes nothing. -/
theorem create_twice_conflict_witness :
    (createWorkspace ⟨[⟨1, "a@x.com", "h"⟩], [], []⟩ 1 "w1" "N" none ("T1")
        false false).2 = ApiResult.ok ⟨"w1", "N"⟩ ∧
    createWorkspace
        (createWorkspace ⟨[⟨1, "a@x.com", "h"⟩], [], []⟩ 1 "w1" "N" none ("T1")
          false false).1 2 "w1" "M" (some (.num 3)) "T2" false false =
      ((createWorkspace ⟨[⟨1, "a@x.com", "h"⟩], [], []⟩ 1 "w1" "N" none ("T1")
          false false).1,
        ApiResult.err 409 "Workspace already exists") :=
  create_twice_conflict ⟨[⟨1, "a@x.com", "h"⟩], [], []⟩ 1 2 "w1" "N" "M"
    none (some (.num 3)) "T1" "T2" false false
    (by decide) (by decide) (by decide) (by decide) (by decide)

/-- C10: (i) a PUT whose body explicitly supplies a falsy JSON value for
the diagram field (null, false, 0 or the empty string — `truthy = false`)
leaves every stored document byte-for-byte unchanged, exactly as if the
field were absent, while the broadcast event still carries the raw
caller-supplied value; (ii) a create with a missing or JSON-null diagram
succeeds and stores the empty object — the serialization of `\x7b\x7d` —
as the document. -/
theorem put_falsy_diagram_ignored_create_default :
    (∀ (db : DB) (rooms : Rooms) (uid : Nat) (wid : String)
        (nm : Option String) (d : Json) (x : Option String) (now : String),
      db.authJoin uid wid = true → d.truthy = false →
      ((updateWorkspace db rooms uid wid ⟨nm, some d, x⟩ now).1.workspaces.map
          (fun w => w.diagram_json) =
        db.workspaces.map (fun w => w.diagram_json)) ∧
      (∀ p ∈ (updateWorkspace db rooms uid wid ⟨nm, some d, x⟩ now).2.2,
        p.2.diagram = some d)) ∧
    (∀ (db : DB) (uid : Nat) (id name : String) (d : Option Json)
        (now : String),
      d = none ∨ d = some Json.null →
      id ≠ "" → name ≠ "" → db.hasWorkspace id = false →
      db.hasMember uid id = false →
      (createWorkspace db uid id name d now false false).2 =
        ApiResult.ok ⟨id, name⟩ ∧
      ∀ w ∈ (createWorkspace db uid id name d now false false).1.workspaces,
        w.id = id → w.diagram_json = Json.stringify (.obj []) ∧
          Json.stringify (.obj []) = "\x7b\x7d") := by
  constructor
  · intro db rooms uid wid nm d x now hauth ht
    unfold updateWorkspace
    rw [if_pos hauth]
    constructor
    · rw [List.map_map]
      refine List.map_congr_left (fun w _ => ?_)
      by_cases h : w.id = wid
      · simp [h, ht]
      · simp [h]
    · intro p hp
      simp only [List.mem_map] at hp
      obtain ⟨c', _, rfl⟩ := hp
      rfl
  · intro db uid id name d now hd hid hname hw hm
    simp only [DB.hasWorkspace] at hw
    simp only [DB.hasMember] at hm
    have hfst : createWorkspace db uid id name d now false false =
        ({ db with
            workspaces := db.workspaces ++
              [⟨id, name, uid, Json.stringify (nullishOrEmpty d), now, now⟩],
            members := db.members ++ [⟨uid, id, "owner"⟩] },
          ApiResult.ok ⟨id, name⟩) := by
      simp [createWorkspace, hid, hname, DB.hasWorkspace, DB.hasMember, hw, hm]
    rw [hfst]
    refine ⟨rfl, ?_⟩
    intro w hmem hwid
    simp only [List.mem_append, List.mem_singleton] at hmem
    rcases hmem with hin | rfl
    · exfalso
      have : db.workspaces.any (fun w => w.id == id) = true :=
        List.any_eq_true.mpr ⟨w, hin, by simp [hwid]⟩
      rw [this] at hw
      cases hw
    · refine ⟨?_, rfl⟩
      rcases hd with rfl | rfl <;> rfl

/-- C10 witness: on a store holding "w1" with document "\x7b"a":1\x7d",
a PUT supplying diagram `0` leaves the stored documents unchanged, and a
create of "w2" with no diagram ends with response ok. -/
theorem put_falsy_diagram_ignored_create_default_witness :
    ((updateWorkspace
        ⟨[], [⟨"w1", "N", 1, "\x7b\"a\":1\x7d", "T1", "T1"⟩], [⟨1, "w1", "owner"⟩]⟩
        (fun _ => []) 1 "w1" ⟨none, some (.num 0), none⟩ "T2").1.workspaces.map
          (fun w => w.diagram_json) = ["\x7b\"a\":1\x7d"]) ∧
    (createWorkspace ⟨[⟨1, "a@x.com", "h"⟩], [], []⟩ 1 "w2" "N" none ("T1")
        false false).2 = ApiResult.ok ⟨"w2", "N"⟩ :=
  ⟨by
    rw [(put_falsy_diagram_ignored_create_default.1
        ⟨[], [⟨"w1", "N", 1, "\x7b\"a\":1\x7d", "T1", "T1"⟩], [⟨1, "w1", "owner"⟩]⟩
        (fun _ => []) 1 "w1" none (.num 0) none ("T2") (by decide) (by decide)).1]
    rfl,
   (put_falsy_diagram_ignored_create_default.2
      ⟨[⟨1, "a@x.com", "h"⟩], [], []⟩ 1 "w2" "N" none ("T1")
      (Or.inl rfl) (by decide) (by decide) (by decide) (by decide)).1⟩

/-- Predicate `hasMember` and the membership test as the list query spells it
differ only by the order of the conjuncts. -/
theorem hasMember_any_comm (db : DB) (uid : Nat) (wid : String) :
    db.hasMember uid wid =
      db.members.any (fun m => m.workspace_id == wid && m.user_id == uid) := by
  unfold DB.hasMember
  refine Bool.eq_iff_iff.mpr ?_
  simp only [List.any_eq_true, Bool.and_eq_true]
  exact ⟨fun ⟨m, hm, h1, h2⟩ => ⟨m, hm, h2, h1⟩, fun ⟨m, hm, h1, h2⟩ => ⟨m, hm, h2, h1⟩⟩

/-- Under the (user_id, workspace_id) PRIMARY KEY at most one membership
row matches a given key. -/
theorem filter_key_length_le_one (l : List MemberRow) (uid : Nat) (wid : String)
    (h : (l.map (fun m => (m.user_id, m.workspace_id))).Nodup) :
    (l.filter (fun m => m.workspace_id == wid && m.user_id == uid)).length ≤ 1 := by
  induction l with
  | nil => simp
  | cons a t ih =>
    simp only [List.map_cons, List.nodup_cons] at h
    obtain ⟨hna, hnt⟩ := h
    by_cases hp : (a.workspace_id == wid && a.user_id == uid) = true
    · have hz : t.filter (fun m => m.workspace_id == wid && m.user_id == uid) = [] := by
        refine List.filter_eq_nil_iff.mpr (fun b hb => ?_)
        intro hpb
        simp only [Bool.and_eq_true, beq_iff_eq] at hp hpb
        exact hna (List.mem_map.mpr ⟨b, hb, by simp [hpb.1, hpb.2, hp.1, hp.2]⟩)
      rw [List.filter_cons, if_pos hp, hz]
      simp
    · rw [List.filter_cons, if_neg hp]
      exact ih hnt

/-- A filter producing at most one row, mapped to a constant, is the
one-element list exactly when some row matches. -/
theorem filter_map_const_eq (l : List MemberRow) (p : MemberRow → Bool)
    (x : ListItem) (hle : (l.filter p).length ≤ 1) :
    (l.filter p).map (fun _ => x) = if l.any p then [x] else [] := by
  cases hf : l.filter p with
  | nil =>
    have hz := List.filter_eq_nil_iff.mp hf
    have hany : l.any p = false := by
      simp only [List.any_eq_false]
      exact hz
    simp [hany]
  | cons a t =>
    have hmemf : a ∈ l.filter p := hf ▸ List.mem_cons_self a t
    have ha := List.mem_filter.mp hmemf
    have ht : t = [] := by
      rw [hf] at hle
      simp only [List.length_cons] at hle
      have h0 : t.length = 0 := by omega
      exact List.eq_nil_of_length_eq_zero h0
    have hany : l.any p = true := List.any_eq_true.mpr ⟨a, ha.1, ha.2⟩
    rw [ht, hany]
    rfl

/-- Under the membership PRIMARY KEY, the JOIN row set of the list query
is the projection of the workspaces the principal is a member of. -/
theorem listRows_eq_filter (db : DB) (uid : Nat) (hkeys : db.WFmemberKeys) :
    listRows db uid =
      (db.workspaces.filter
        (fun w => db.members.any
          (fun m => m.workspace_id == w.id && m.user_id == uid))).map
        (fun w => ⟨w.id, w.name, w.updated_at⟩) := by
  unfold listRows
  induction db.workspaces with
  | nil => rfl
  | cons w t ih =>
    rw [List.flatMap_cons, ih,
      filter_map_const_eq db.members _ _
        (filter_key_length_le_one db.members uid w.id hkeys)]
    by_cases h : db.members.any
        (fun m => m.workspace_id == w.id && m.user_id == uid) = true
    · simp [List.filter_cons, h]
    · simp [List.filter_cons, h]

/-- C9: for an authenticated principal the list endpoint returns, as
(id, name, updatedAt) triples, exactly the workspaces for which the
principal holds a membership row — a permutation of that set's
projection, and every returned element arises from a stored workspace
the principal is a member of — ordered by updated-at descending.  The
PRIMARY-KEY hypothesis on memberships holds in every reachable state. -/
theorem list_membership_sorted (db : DB) (uid : Nat) (hkeys : db.WFmemberKeys) :
    List.Sorted listDescOrder (listWorkspaces db uid) ∧
    List.Perm (listWorkspaces db uid)
      ((db.workspaces.filter (fun w => db.hasMember uid w.id)).map
        (fun w => ⟨w.id, w.name, w.updated_at⟩)) ∧
    (∀ r ∈ listWorkspaces db uid, ∃ w ∈ db.workspaces,
      (∃ m ∈ db.members, m.user_id = uid ∧ m.workspace_id = w.id) ∧
      r = ⟨w.id, w.name, w.updated_at⟩) := by
  have hperm := List.perm_insertionSort listDescOrder (listRows db uid)
  have heq := listRows_eq_filter db uid hkeys
  have hfil : db.workspaces.filter (fun w => db.hasMember uid w.id) =
      db.workspaces.filter
        (fun w => db.members.any
          (fun m => m.workspace_id == w.id && m.user_id == uid)) :=
    List.filter_congr (fun w _ => hasMember_any_comm db uid w.id)
  refine ⟨List.sorted_insertionSort listDescOrder _, ?_, ?_⟩
  · rw [hfil, ← heq]
    exact hperm
  · intro r hr
    have hr' : r ∈ listRows db uid := by
      unfold listWorkspaces at hr
      exact (List.mem_insertionSort listDescOrder).mp hr
    rw [heq] at hr'
    simp only [List.mem_map, List.mem_filter] at hr'
    obtain ⟨w, ⟨hwmem, hany⟩, rfl⟩ := hr'
    simp only [List.any_eq_true, Bool.and_eq_true, beq_iff_eq] at hany
    obtain ⟨m, hm, hmw, hmu⟩ := hany
    exact ⟨w, hwmem, ⟨m, hm, hmu, hmw⟩, rfl⟩

/-- C9 witness: user 1 is a member of both stored workspaces; the list
response is sorted by updated-at descending. -/
theorem list_membership_sorted_witness :
    List.Sorted listDescOrder
      (listWorkspaces
        ⟨[], [⟨"w1", "A", 1, "\x7b\x7d", "T1", "T1"⟩,
              ⟨"w2", "B", 1, "\x7b\x7d", "T3", "T3"⟩],
          [⟨1, "w1", "owner"⟩, ⟨1, "w2", "owner"⟩]⟩ 1) :=
  (list_membership_sorted
      ⟨[], [⟨"w1", "A", 1, "\x7b\x7d", "T1", "T1"⟩,
            ⟨"w2", "B", 1, "\x7b\x7d", "T3", "T3"⟩],
        [⟨1, "w1", "owner"⟩, ⟨1, "w2", "owner"⟩]⟩ 1
      (by unfold DB.WFmemberKeys; decide)).1

end ChartDB
